import Mathlib

/-!
Shallow embedding of the A/B-test orchestration engine
(`src/abtesting/` and `src/integrations/youtube.py`) and proofs about it.

Conventions of the embedding:
* Timestamps and dates are natural numbers (day granularity where the code
  calls `.date()`; the clock of a scheduler state strictly increases with
  each application, modelling `timezone.now()`).
* Python floats are modelled as exact rationals `ℚ`; `round(x, 2)` is
  modelled by `round2` below (rounding half up; the half-to-even difference
  of Python can only show at exact half-cent boundaries, which never occur
  in the claims considered here).
* Django query results and JSON detail payloads are modelled by plain lists
  and structure fields; a `(value, error_message)` pair returned by the
  Python services becomes a product with `Option String` for the error.
* `math.sqrt` (used only by `WinnerSelector.calculate_confidence`) forces
  that one definition into `ℝ`.
-/

namespace ABTesting

/-- Lifecycle states of `ABTest.status` (`src/abtesting/models.py`). -/
inductive TestStatus
  | draft
  | active
  | paused
  | completed
deriving DecidableEq, Repr

/-- A `TestVariant` row (`src/abtesting/models.py`): id, name (A/B/C names
abstracted to naturals preserving alphabetical order), cumulative metrics,
computed click-through-rate, winner flag, and last-applied timestamp. -/
structure TestVariant where
  id : ℕ
  variant_name : ℕ
  impressions : ℕ
  clicks : ℕ
  ctr : ℚ
  is_winner : Bool
  applied_at : Option ℕ
deriving DecidableEq, Repr

/-! ## MetricsCollector (`src/abtesting/metrics_collector.py`) -/

/-- Rounding to two decimal places, modelling Python `round(x, 2)`. -/
def round2 (q : ℚ) : ℚ := (round (q * 100) : ℚ) / 100

/-- `MetricsCollector.calculate_variant_ctr` (metrics_collector.py:312):
returns `0.0` when `impressions <= 0`, otherwise
`round(clicks / impressions * 100, 2)`. -/
def calculate_variant_ctr (impressions clicks : ℤ) : ℚ :=
  if impressions ≤ 0 then 0
  else round2 ((clicks : ℚ) / (impressions : ℚ) * 100)

/-- Spec-side restatement of the click-through-rate formula, written from
the spec's words ("round(clicks/impressions*100, 2) when impressions > 0,
else exactly 0.0") for the refinement claim C6. -/
def ctr_spec_model (impressions clicks : ℤ) : ℚ :=
  if 0 < impressions then round2 ((clicks : ℚ) / (impressions : ℚ) * 100) else 0

/-- One row of the YouTube Analytics daily response: `(day, views)`. -/
abbrev DailyRow := ℕ × ℕ

/-- One active period of a variant: `(start_date, end_date)`. -/
abbrev Period := ℕ × ℕ

/-- The date-membership test of `_calculate_variant_metrics`
(metrics_collector.py:183): `period_start <= row_date <= period_end`
for some period in the list. -/
def date_in_periods (periods : List Period) (d : ℕ) : Bool :=
  periods.any (fun p => decide (p.1 ≤ d ∧ d ≤ p.2))

/-- Total daily views attributed to a variant: the sum of `views` over the
rows whose day lies inside one of the variant's active periods
(the inner loop of `_calculate_variant_metrics`). -/
def attributed_views (periods : List Period) (rows : List DailyRow) : ℕ :=
  rows.foldl (fun acc r => if date_in_periods periods r.1 then acc + r.2 else acc) 0

/-- The metrics dictionary produced by `_calculate_variant_metrics`. -/
structure VariantMetrics where
  impressions : ℕ
  clicks : ℕ
  views : ℕ
  ctr : ℚ
deriving DecidableEq, Repr

/-- `MetricsCollector._calculate_variant_metrics` (metrics_collector.py:139):
zero metrics when the variant has no active periods; otherwise
impressions = attributed views × 10, clicks = attributed views, and
click-through-rate computed by `calculate_variant_ctr`. -/
def calculate_variant_metrics (periods : List Period) (rows : List DailyRow) :
    VariantMetrics :=
  if periods = [] then ⟨0, 0, 0, 0⟩
  else
    let total_views := attributed_views periods rows
    let estimated_impressions := total_views * 10
    let estimated_clicks := total_views
    ⟨estimated_impressions, estimated_clicks, total_views,
      calculate_variant_ctr (estimated_impressions : ℤ) (estimated_clicks : ℤ)⟩

/-- One `variant_changed` entry of the audit log, as read back by
`_get_variant_active_periods`: the entry's timestamp (day granularity)
and the `variant_id` of its detail payload. -/
structure LogEntry where
  timestamp : ℕ
  variant_id : ℕ
deriving DecidableEq, Repr

/-- Insertion step of the timestamp sort (models `order_by('timestamp')`). -/
def insert_by_time (e : LogEntry) : List LogEntry → List LogEntry
  | [] => [e]
  | f :: rest =>
    if e.timestamp ≤ f.timestamp then e :: f :: rest else f :: insert_by_time e rest

/-- Sorting the `variant_changed` entries by timestamp, ascending
(models `TestLog.objects.filter(...).order_by('timestamp')`). -/
def sort_by_time : List LogEntry → List LogEntry
  | [] => []
  | e :: rest => insert_by_time e (sort_by_time rest)

/-- The loop of `_get_variant_active_periods` (metrics_collector.py:228):
an entry naming this variant opens an interval at its timestamp; an entry
naming any other variant closes an open interval at its timestamp; an
interval still open at the end extends to `end_date`
(the test's completion date or "now"). -/
def periods_loop (vid end_date : ℕ) : List LogEntry → Option ℕ → List Period
  | [], current_start =>
    match current_start with
    | none => []
    | some s => [(s, end_date)]
  | log :: rest, current_start =>
    if log.variant_id = vid then periods_loop vid end_date rest (some log.timestamp)
    else
      match current_start with
      | some s => (s, log.timestamp) :: periods_loop vid end_date rest none
      | none => periods_loop vid end_date rest none

/-- `MetricsCollector._get_variant_active_periods` (metrics_collector.py:206):
walks the `variant_changed` entries in timestamp order and reconstructs the
variant's active periods. -/
def get_variant_active_periods (logs : List LogEntry) (vid end_date : ℕ) :
    List Period :=
  periods_loop vid end_date (sort_by_time logs) none

/-! ## WinnerSelector (`src/abtesting/winner_selector.py`) -/

/-- The minimum-impressions gate of `check_for_winner`
(winner_selector.py:49): set to 0 "for testing" in the source. -/
def MIN_IMPRESSIONS : ℕ := 0

/-- Python `max(variants, key=lambda v: v.ctr)` (winner_selector.py:56):
the first variant with maximal click-through-rate (a later variant replaces
the running best only when strictly greater). -/
def max_by_ctr : List TestVariant → Option TestVariant
  | [] => none
  | v :: rest => some (rest.foldl (fun b w => if b.ctr < w.ctr then w else b) v)

/-- `WinnerSelector.check_for_winner` (winner_selector.py:23) on the test's
status and variant list; returns `(has_winner, winner_variant_id, error)`.
The performance-threshold and confidence checks of the source are commented
out ("FOR TESTING"), so the best-CTR variant is accepted directly. -/
def check_for_winner (status : TestStatus) (variants : List TestVariant) :
    Bool × Option ℕ × Option String :=
  if status ≠ TestStatus.active ∧ status ≠ TestStatus.completed then
    (false, none, some "Cannot check winner for this test status")
  else if variants.length < 2 then
    (false, none, some "Test must have at least 2 variants")
  else if variants.any (fun v => decide (v.impressions < MIN_IMPRESSIONS)) then
    (false, none, some "Insufficient data")
  else
    match max_by_ctr variants with
    | some best => (true, some best.id, none)
    | none => (false, none, some "Test must have at least 2 variants")

/-- The mutable state touched by `select_winner`: the test's status, its
variants, its winner reference and completion timestamp. -/
structure ABTestState where
  status : TestStatus
  variants : List TestVariant
  winner_variant : Option ℕ
  completed_at : Option ℕ
deriving DecidableEq, Repr

/-- The winner-resolution step of `WinnerSelector.select_winner`
(winner_selector.py:108): a manual id is looked up among the test's own
variants; otherwise the automatic `check_for_winner` candidate is used. -/
def resolve_winner_id (s : ABTestState) (manual_variant_id : Option ℕ) : Option ℕ :=
  match manual_variant_id with
  | some vid =>
    if (s.variants.find? (fun v => decide (v.id = vid))).isSome then some vid
    else none
  | none =>
    match check_for_winner s.status s.variants with
    | (true, some wid, _) => some wid
    | _ => none

/-- `WinnerSelector.select_winner` (winner_selector.py:90): validates the
status, resolves the winner, then sets the winner's `is_winner` flag, the
test's winner reference, and completes an active test, all in one
transaction. Returns `(winner_id, error, new_state)`. -/
def select_winner (s : ABTestState) (manual_variant_id : Option ℕ) (now : ℕ) :
    Option ℕ × Option String × ABTestState :=
  if s.status ≠ TestStatus.active ∧ s.status ≠ TestStatus.completed then
    (none, some "Cannot select winner for this test status", s)
  else
    match resolve_winner_id s manual_variant_id with
    | none => (none, some "No winner could be selected", s)
    | some wid =>
      let variants2 := s.variants.map
        (fun v => if v.id = wid then { v with is_winner := true } else v)
      let status2 := if s.status = TestStatus.active then TestStatus.completed else s.status
      let completed2 := if s.status = TestStatus.active then some now else s.completed_at
      (some wid, none,
        { status := status2, variants := variants2,
          winner_variant := some wid, completed_at := completed2 })

/-- Number of variants of a test flagged as winner. -/
def winner_count (variants : List TestVariant) : ℕ :=
  (variants.filter (fun v => v.is_winner)).length

/-- The click/impression proportion of a variant,
`x / n if n > 0 else 0` (winner_selector.py:228). -/
noncomputable def click_proportion (v : TestVariant) : ℝ :=
  if 0 < (v.impressions : ℝ) then (v.clicks : ℝ) / (v.impressions : ℝ) else 0

/-- The pooled proportion `(x1 + x2) / (n1 + n2)` (winner_selector.py:236). -/
noncomputable def pooled_proportion (a b : TestVariant) : ℝ :=
  ((a.clicks : ℝ) + (b.clicks : ℝ)) / ((a.impressions : ℝ) + (b.impressions : ℝ))

/-- The pooled standard error
`sqrt(p_pool * (1 - p_pool) * (1/n1 + 1/n2))` (winner_selector.py:239). -/
noncomputable def standard_error (a b : TestVariant) : ℝ :=
  Real.sqrt (pooled_proportion a b * (1 - pooled_proportion a b) *
    (1 / (a.impressions : ℝ) + 1 / (b.impressions : ℝ)))

/-- The z-score `(p1 - p2) / se` (winner_selector.py:246). -/
noncomputable def z_score (a b : TestVariant) : ℝ :=
  (click_proportion a - click_proportion b) / standard_error a b

open Classical in
/-- `WinnerSelector.calculate_confidence` (winner_selector.py:203): the
simplified two-proportion z-test, with the source's early returns and its
final coarse bucketing of the z-score, capped by `min(confidence, 1.0)`. -/
noncomputable def calculate_confidence (a b : TestVariant) : ℝ :=
  if a.impressions < 30 ∨ b.impressions < 30 then 0
  else if click_proportion a = click_proportion b then 0
  else if standard_error a b = 0 then 0
  else
    let z := z_score a b
    if z ≤ 0 then 0
    else
      let confidence :=
        if 2.576 ≤ z then 0.995
        else if 1.96 ≤ z then 0.975
        else if 1.645 ≤ z then 0.95
        else if 1.28 ≤ z then 0.90
        else 0.5 + (z / 1.28) * 0.40
      min confidence 1

/-! ## VariantScheduler (`src/abtesting/scheduler.py`) -/

/-- Scheduler-facing state of one test: the lifecycle status, the variants'
`applied_at` timestamps listed in `variant_name` (alphabetical) order, and
a clock that strictly increases with each application, modelling
`timezone.now()`. -/
structure SchedulerState where
  status : TestStatus
  applied : List (Option ℕ)
  clock : ℕ
deriving DecidableEq, Repr

/-- The most recently applied variant, as
`variants.filter(applied_at__isnull=False).order_by('-applied_at').first()`
(scheduler.py:40): the index and timestamp of the variant with the greatest
non-null `applied_at` (the leftmost one on ties). -/
def argmax_step (o : Option ℕ) (tail : Option (ℕ × ℕ)) : Option (ℕ × ℕ) :=
  match o, tail with
  | none, t => t
  | some t, none => some (0, t)
  | some t, some (j, u) => if t < u then some (j, u) else some (0, t)

/-- Fold of `argmax_step` over the list of `applied_at` values; indices of
the tail result are shifted past the head. -/
def argmax_applied : List (Option ℕ) → Option (ℕ × ℕ)
  | [] => none
  | o :: rest => argmax_step o ((argmax_applied rest).map (fun p => (p.1 + 1, p.2)))

/-- `VariantScheduler.get_current_variant` (scheduler.py:26): the most
recently applied variant; if none has been applied, the alphabetically
first variant (index 0); `none` only when the test has no variants. -/
def get_current_variant (s : SchedulerState) : Option ℕ :=
  match argmax_applied s.applied with
  | some (i, _) => some i
  | none => if s.applied.isEmpty then none else some 0

/-- `VariantScheduler.apply_variant` (scheduler.py:107) under the claim's
assumption that the push to the external platform succeeds: requires an
active test and a valid variant, stamps the variant's `applied_at` with the
current time, and advances the clock. -/
def apply_variant (s : SchedulerState) (i : ℕ) : Option SchedulerState :=
  if s.status ≠ TestStatus.active then none
  else if i < s.applied.length then
    some { s with applied := s.applied.set i (some s.clock), clock := s.clock + 1 }
  else none

/-- `VariantScheduler.rotate_variant` (scheduler.py:55): requires an active
test, determines the current variant, moves to the one immediately
following it in alphabetical order (wrapping to the first), and applies it.
Returns the applied variant's index and the new state. -/
def rotate_variant (s : SchedulerState) : Option (ℕ × SchedulerState) :=
  if s.status ≠ TestStatus.active then none
  else
    let n := s.applied.length
    if n = 0 then none
    else
      let next_index :=
        match get_current_variant s with
        | none => 0
        | some i => (i + 1) % n
      match apply_variant s next_index with
      | some s2 => some (next_index, s2)
      | none => none

/-- `k` successive calls to `rotate_variant`, collecting the indices of the
variants applied, in order. -/
def rotate_seq : ℕ → SchedulerState → Option (List ℕ × SchedulerState)
  | 0, s => some ([], s)
  | k + 1, s =>
    match rotate_variant s with
    | none => none
    | some (i, s2) => (rotate_seq k s2).map (fun p => (i :: p.1, p.2))

/-- Well-formedness of a scheduler state: every recorded application
happened strictly before the current clock. -/
def WfApplied (l : List (Option ℕ)) (clock : ℕ) : Bool :=
  l.all (fun o => match o with | none => true | some t => decide (t < clock))

/-! ## ABTestEngine (`src/abtesting/test_engine.py`) -/

/-- The content payload of one entry of `variants_data` passed to
`create_test`. A field is `none` when the key is missing or its value is
falsy in Python (absent key, `None`, or empty string). -/
structure VariantData where
  name : Option String
  thumbnail_url : Option String
  title : Option String
  description : Option String
deriving DecidableEq, Repr

/-- The list of valid test types (test_engine.py:46). -/
def valid_types : List String := ["thumbnail", "title", "description", "combined"]

/-- The per-variant validation chain of `create_test` (test_engine.py:51):
the first error raised for this variant, or `none` if it passes. -/
def variant_error (test_type : String) (v : VariantData) : Option String :=
  if v.name.isNone then some "Each variant must have a name"
  else if test_type = "thumbnail" ∧ v.thumbnail_url.isNone then
    some "Thumbnail test requires thumbnail_url for each variant"
  else if test_type = "title" ∧ v.title.isNone then
    some "Title test requires title for each variant"
  else if test_type = "description" ∧ v.description.isNone then
    some "Description test requires description for each variant"
  else if test_type = "combined" ∧ (v.thumbnail_url.isNone ∨ v.title.isNone) then
    some "Combined test requires both thumbnail_url and title for each variant"
  else none

/-- Spec-side predicate, written from the claim's words: the variant lacks
a field its content-kind requires (thumbnail requires thumbnail_url, title
requires title, description requires description, combined requires both
thumbnail_url and title). -/
def missing_required_field (test_type : String) (v : VariantData) : Prop :=
  (test_type = "thumbnail" ∧ v.thumbnail_url = none) ∨
  (test_type = "title" ∧ v.title = none) ∨
  (test_type = "description" ∧ v.description = none) ∨
  (test_type = "combined" ∧ (v.thumbnail_url = none ∨ v.title = none))

instance (test_type : String) (v : VariantData) :
    Decidable (missing_required_field test_type v) := by
  unfold missing_required_field
  infer_instance

/-- What `create_test` persists atomically on success: the test in `draft`
status, its variant rows, and the `created` audit entry. -/
structure CreateOutcome where
  status : TestStatus
  variants : List VariantData
  log_actions : List String
deriving DecidableEq, Repr

/-- `ABTestEngine.create_test` (test_engine.py:18): requires a user,
a variant count in [2,3], a valid test type, and the content-kind-specific
fields on every variant; on success creates the test in `draft` with its
variants and a `created` audit entry, all in one transaction. -/
def create_test (has_user : Bool) (test_type : String)
    (variants_data : List VariantData) : Option CreateOutcome × Option String :=
  if ¬ has_user then (none, some "User is required to create a test")
  else if variants_data.length < 2 ∨ 3 < variants_data.length then
    (none, some "Test must have between 2 and 3 variants")
  else if test_type ∉ valid_types then (none, some "Invalid test type")
  else
    match variants_data.findSome? (variant_error test_type) with
    | some e => (none, some e)
    | none =>
      (some { status := TestStatus.draft, variants := variants_data,
              log_actions := ["created"] }, none)

/-- The state read and written by `start_test`: lifecycle status, start and
end timestamps, the configured duration (in hours, kept abstract as a
natural number added to the start time), the variant count, whether the
first variant got an `applied_at` stamp, and the audit-log actions. -/
structure StartState where
  status : TestStatus
  start_date : Option ℕ
  end_date : Option ℕ
  duration_hours : ℕ
  variant_count : ℕ
  first_variant_applied : Bool
  log_actions : List String
deriving DecidableEq, Repr

/-- `ABTestEngine.start_test` (test_engine.py:107): requires status in
{draft, paused} and at least 2 variants; sets the status to `active`, the
start date on first start only, the end date to start + duration, and logs
`started`; then tries to apply the alphabetically first variant, whose
external success is the parameter `apply_ok`. A failed application leaves
the started state intact and is reported as a warning message next to
`success = true`. -/
def start_test (s : StartState) (now : ℕ) (apply_ok : Bool) :
    Bool × Option String × StartState :=
  if s.status ≠ TestStatus.draft ∧ s.status ≠ TestStatus.paused then
    (false, some "Cannot start test in this status", s)
  else if s.variant_count < 2 then
    (false, some "Test must have at least 2 variants to start", s)
  else
    let start := s.start_date.getD now
    let started : StartState :=
      { s with status := TestStatus.active, start_date := some start,
               end_date := some (start + s.duration_hours),
               log_actions := s.log_actions ++ ["started"] }
    if apply_ok then (true, none, { started with first_variant_applied := true })
    else (true, some "Test started but failed to apply first variant", started)

/-! ## YouTubeAnalyticsService (`src/integrations/youtube.py`) -/

/-- Outcome of one `request.execute()` call: success, an `HttpError` with a
status code, or a non-HTTP exception. -/
inductive ApiOutcome
  | ok
  | httpError (code : ℕ)
  | exc
deriving DecidableEq, Repr

/-- Retry configuration of `YouTubeAnalyticsService` (youtube.py:417). -/
def MAX_RETRIES : ℕ := 3

/-- Initial backoff in seconds (youtube.py:419). -/
def INITIAL_BACKOFF : ℕ := 1

/-- Backoff cap in seconds (youtube.py:420). -/
def MAX_BACKOFF : ℕ := 16

/-- Observable result of `_execute_with_retry`: whether it succeeded, the
error message, how many times the request was executed, and the sleep
durations (in seconds) performed between attempts. -/
structure RetryResult where
  success : Bool
  error : Option String
  executions : ℕ
  sleeps : List ℕ
deriving DecidableEq, Repr

/-- The `for attempt in range(MAX_RETRIES)` loop of `_execute_with_retry`
(youtube.py:446), with the environment abstracted: `outcomes attempt` is
what `request.execute()` does on that attempt, and `refresh_ok attempt`
is whether `get_credentials()` recovers usable credentials when a 401 is
handled on that attempt. `remaining` counts the loop iterations left. -/
def retry_go (outcomes : ℕ → ApiOutcome) (refresh_ok : ℕ → Bool) :
    ℕ → ℕ → ℕ → ℕ → List ℕ → RetryResult
  | 0, _, _, execs, sleeps =>
    ⟨false, some "failed after 3 attempts", execs, sleeps⟩
  | remaining + 1, attempt, backoff, execs, sleeps =>
    match outcomes attempt with
    | ApiOutcome.ok => ⟨true, none, execs + 1, sleeps⟩
    | ApiOutcome.exc => ⟨false, some "Unexpected error", execs + 1, sleeps⟩
    | ApiOutcome.httpError code =>
      if code = 429 ∨ (500 ≤ code ∧ code < 600) then
        if attempt < MAX_RETRIES - 1 then
          retry_go outcomes refresh_ok remaining (attempt + 1) (backoff * 2)
            (execs + 1) (sleeps ++ [min backoff MAX_BACKOFF])
        else
          ⟨false, some "Rate limit exceeded or server error after 3 attempts",
            execs + 1, sleeps⟩
      else if code = 401 then
        if refresh_ok attempt ∧ attempt < MAX_RETRIES - 1 then
          retry_go outcomes refresh_ok remaining (attempt + 1) backoff
            (execs + 1) sleeps
        else
          ⟨false, some "Authentication failed. Please reconnect your YouTube account.",
            execs + 1, sleeps⟩
      else if code = 403 then
        ⟨false, some "YouTube API quota exceeded. Please try again later.",
          execs + 1, sleeps⟩
      else
        ⟨false, some "YouTube API error", execs + 1, sleeps⟩

/-- `YouTubeAnalyticsService._execute_with_retry` (youtube.py:429). -/
def execute_with_retry (outcomes : ℕ → ApiOutcome) (refresh_ok : ℕ → Bool) :
    RetryResult :=
  retry_go outcomes refresh_ok MAX_RETRIES 0 INITIAL_BACKOFF 0 []

/-! ## Helper lemmas -/

/-- With no active periods, the attribution loop never adds a row. -/
theorem attributed_views_nil (rows : List DailyRow) : attributed_views [] rows = 0 := by
  have h : ∀ (a : ℕ),
      rows.foldl (fun acc r => if date_in_periods [] r.1 then acc + r.2 else acc) a = a := by
    intro a
    induction rows generalizing a with
    | nil => rfl
    | cons r rest ih => simp [date_in_periods, ih]
  simpa [attributed_views] using h 0

/-! ## Claim theorems -/

/-- Claim C6: the click-through-rate computation returns
round(clicks/impressions*100, 2) for every pair with impressions > 0 and
exactly 0.0 for impressions ≤ 0; in particular on the grid
impressions ∈ {0, 1, 1000}, clicks ∈ {0, impressions, impressions+1}. -/
theorem c6_ctr_rounding :
    (∀ impressions clicks : ℤ,
      calculate_variant_ctr impressions clicks = ctr_spec_model impressions clicks) ∧
    calculate_variant_ctr 0 0 = 0 ∧ calculate_variant_ctr 0 1 = 0 ∧
    calculate_variant_ctr 1 0 = 0 ∧ calculate_variant_ctr 1 1 = 100 ∧
    calculate_variant_ctr 1 2 = 200 ∧ calculate_variant_ctr 1000 0 = 0 ∧
    calculate_variant_ctr 1000 1000 = 100 ∧
    calculate_variant_ctr 1000 1001 = 1001 / 10 := by
  refine ⟨fun i c => ?_, by norm_num [calculate_variant_ctr, round2],
    by norm_num [calculate_variant_ctr, round2],
    by norm_num [calculate_variant_ctr, round2],
    by norm_num [calculate_variant_ctr, round2],
    by norm_num [calculate_variant_ctr, round2],
    by norm_num [calculate_variant_ctr, round2],
    by norm_num [calculate_variant_ctr, round2],
    by norm_num [calculate_variant_ctr, round2]⟩
  unfold calculate_variant_ctr ctr_spec_model
  rcases le_or_lt i 0 with h | h
  · rw [if_pos h, if_neg (not_lt.mpr h)]
  · rw [if_neg (not_le.mpr h), if_pos h]

/-- Claim C5: every variant metrics record produced by a collection run has
clicks equal to its attributed daily views, impressions equal to ten times
that, and click-through-rate exactly 10.0 when at least one view was
attributed and exactly 0.0 otherwise. -/
theorem c5_constant_ctr (periods : List Period) (rows : List DailyRow) :
    (calculate_variant_metrics periods rows).impressions =
      attributed_views periods rows * 10 ∧
    (calculate_variant_metrics periods rows).clicks = attributed_views periods rows ∧
    (calculate_variant_metrics periods rows).ctr =
      (if 1 ≤ attributed_views periods rows then 10 else 0) := by
  by_cases hp : periods = []
  · subst hp
    simp [calculate_variant_metrics, attributed_views_nil]
  · set v := attributed_views periods rows with hv
    have hmet : calculate_variant_metrics periods rows =
        ⟨v * 10, v, v, calculate_variant_ctr ((v * 10 : ℕ) : ℤ) ((v : ℕ) : ℤ)⟩ := by
      simp [calculate_variant_metrics, hp]
    rcases Nat.eq_zero_or_pos v with hv0 | hv1
    · rw [hmet, hv0]
      refine ⟨rfl, rfl, ?_⟩
      norm_num [calculate_variant_ctr]
    · rw [hmet, if_pos (show 1 ≤ v by omega)]
      refine ⟨rfl, rfl, ?_⟩
      show calculate_variant_ctr ((v * 10 : ℕ) : ℤ) ((v : ℕ) : ℤ) = 10
      have h10 : ¬ (((v * 10 : ℕ) : ℤ) ≤ 0) := by
        push_cast
        omega
      unfold calculate_variant_ctr
      rw [if_neg h10]
      have hvne : (v : ℚ) ≠ 0 := Nat.cast_ne_zero.mpr (by omega)
      have harg : ((((v : ℕ) : ℤ)) : ℚ) / ((((v * 10 : ℕ) : ℤ)) : ℚ) * 100 = 10 := by
        push_cast
        field_simp
        ring
      rw [harg]
      norm_num [round2]

/-- Claim C3: a synthetic audit log of three variant_changed entries at
times t0 < t1 < t2 naming variants A, B, A yields the active periods
[(t0, t1), (t2, end)] for A and [(t1, t2)] for B. -/
theorem c3_active_periods (t0 t1 t2 A B endd : ℕ)
    (h01 : t0 < t1) (h12 : t1 < t2) (hAB : A ≠ B) :
    get_variant_active_periods [⟨t0, A⟩, ⟨t1, B⟩, ⟨t2, A⟩] A endd =
      [(t0, t1), (t2, endd)] ∧
    get_variant_active_periods [⟨t0, A⟩, ⟨t1, B⟩, ⟨t2, A⟩] B endd = [(t1, t2)] := by
  have hsort : sort_by_time [⟨t0, A⟩, ⟨t1, B⟩, ⟨t2, A⟩] =
      [⟨t0, A⟩, ⟨t1, B⟩, ⟨t2, A⟩] := by
    simp [sort_by_time, insert_by_time, le_of_lt h01, le_of_lt h12]
  constructor
  · simp [get_variant_active_periods, hsort, periods_loop, Ne.symm hAB]
  · simp [get_variant_active_periods, hsort, periods_loop, hAB]

/-- Witness for C3 at t0 = 0, t1 = 5, t2 = 9, A = 1, B = 2, end = 20. -/
theorem c3_active_periods_witness :
    get_variant_active_periods [⟨0, 1⟩, ⟨5, 2⟩, ⟨9, 1⟩] 1 20 = [(0, 5), (9, 20)] ∧
    get_variant_active_periods [⟨0, 1⟩, ⟨5, 2⟩, ⟨9, 1⟩] 2 20 = [(5, 9)] :=
  c3_active_periods 0 5 9 1 2 20 (by decide) (by decide) (by decide)

/-- Claim C8: starting a test from draft or paused succeeds even when the
application of the first variant fails: the result reports success with a
warning message, and the test ends up active with its start and end
timestamps set and a started audit entry. -/
theorem c8_start_decoupled (s : StartState) (now : ℕ)
    (hstatus : s.status = TestStatus.draft ∨ s.status = TestStatus.paused)
    (hvar : 2 ≤ s.variant_count) :
    (start_test s now false).1 = true ∧
    (start_test s now false).2.1 = some "Test started but failed to apply first variant" ∧
    (start_test s now false).2.2.status = TestStatus.active ∧
    (start_test s now false).2.2.start_date = some (s.start_date.getD now) ∧
    (start_test s now false).2.2.end_date =
      some (s.start_date.getD now + s.duration_hours) ∧
    (start_test s now false).2.2.log_actions = s.log_actions ++ ["started"] := by
  have h1 : ¬ (s.status ≠ TestStatus.draft ∧ s.status ≠ TestStatus.paused) := by
    rcases hstatus with h | h <;> simp [h]
  have h2 : ¬ (s.variant_count < 2) := not_lt.mpr hvar
  unfold start_test
  rw [if_neg h1, if_neg h2]
  simp

/-- Witness for C8: a concrete draft test with two variants whose first
application fails still starts. -/
theorem c8_start_decoupled_witness :
    (start_test ⟨TestStatus.draft, none, none, 48, 2, false, []⟩ 100 false).1 = true ∧
    (start_test ⟨TestStatus.draft, none, none, 48, 2, false, []⟩ 100 false).2.2.status =
      TestStatus.active := by
  have h := c8_start_decoupled ⟨TestStatus.draft, none, none, 48, 2, false, []⟩ 100
    (Or.inl rfl) (by decide)
  exact ⟨h.1, h.2.2.1⟩

/-- A variant lacking a content-kind-required field never passes the
per-variant validation chain. -/
theorem variant_error_of_missing (tt : String) (v : VariantData)
    (h : missing_required_field tt v) : (variant_error tt v).isSome := by
  unfold variant_error
  by_cases hn : v.name.isNone
  · simp [hn]
  · rw [if_neg hn]
    rcases h with ⟨htt, hf⟩ | ⟨htt, hf⟩ | ⟨htt, hf⟩ | ⟨htt, hf⟩
    · subst htt
      simp [hf]
    · subst htt
      simp [hf]
    · subst htt
      simp [hf]
    · subst htt
      rcases hf with hf | hf <;> simp [hf]

/-- A named variant with every content-kind-required field present passes
the per-variant validation chain. -/
theorem variant_error_none (tt : String) (v : VariantData)
    (hname : v.name.isSome) (hmiss : ¬ missing_required_field tt v) :
    variant_error tt v = none := by
  obtain ⟨nm, hnm⟩ := Option.isSome_iff_exists.mp hname
  unfold variant_error
  rw [if_neg (by simp [hnm])]
  rw [if_neg (fun hc => hmiss (Or.inl ⟨hc.1, Option.isNone_iff_eq_none.mp hc.2⟩))]
  rw [if_neg (fun hc => hmiss (Or.inr (Or.inl ⟨hc.1, Option.isNone_iff_eq_none.mp hc.2⟩)))]
  rw [if_neg (fun hc =>
    hmiss (Or.inr (Or.inr (Or.inl ⟨hc.1, Option.isNone_iff_eq_none.mp hc.2⟩))))]
  rw [if_neg (fun hc => hmiss (Or.inr (Or.inr (Or.inr ⟨hc.1,
    hc.2.imp Option.isNone_iff_eq_none.mp Option.isNone_iff_eq_none.mp⟩))))]

/-- Counterexample to claim C7 as stated: a request with 2 variants, a
valid content-kind, and every content-kind-required field present is
nevertheless rejected, because one variant has no name. -/
theorem c7_create_validation_counterexample :
    create_test true "thumbnail"
      [⟨none, some "u1", none, none⟩, ⟨some "B", some "u2", none, none⟩] =
      (none, some "Each variant must have a name") := by
  rfl

/-- Claim C7 (amended): create fails — creating nothing — whenever the
variant count is outside [2,3] or any variant lacks a field its
content-kind requires; and it creates the test in draft with its variants
and a created audit entry whenever, in addition, a creating user is
present, the content-kind is one of the four valid kinds, and every
variant carries a name. -/
theorem c7_create_validation (has_user : Bool) (test_type : String)
    (variants_data : List VariantData) :
    ((variants_data.length < 2 ∨ 3 < variants_data.length) →
      (create_test has_user test_type variants_data).1 = none) ∧
    ((∃ v ∈ variants_data, missing_required_field test_type v) →
      (create_test has_user test_type variants_data).1 = none) ∧
    (has_user = true → test_type ∈ valid_types →
      2 ≤ variants_data.length → variants_data.length ≤ 3 →
      (∀ v ∈ variants_data, v.name.isSome ∧ ¬ missing_required_field test_type v) →
      create_test has_user test_type variants_data =
        (some ⟨TestStatus.draft, variants_data, ["created"]⟩, none)) := by
  refine ⟨?_, ?_, ?_⟩
  · intro hcount
    unfold create_test
    split_ifs <;> rfl
  · intro hmiss
    unfold create_test
    split_ifs with h1 h2 h3
    all_goals try rfl
    obtain ⟨v, hv, hvmiss⟩ := hmiss
    cases hfind : variants_data.findSome? (variant_error test_type) with
    | some e => simp [hfind]
    | none =>
      have hnone := List.findSome?_eq_none_iff.mp hfind v hv
      have hsome := variant_error_of_missing test_type v hvmiss
      rw [hnone] at hsome
      cases hsome
  · intro hu htt hlen2 hlen3 hall
    unfold create_test
    rw [if_neg (not_not_intro hu), if_neg (by omega), if_neg (not_not_intro htt)]
    rw [List.findSome?_eq_none_iff.mpr
      (fun v hv => variant_error_none test_type v (hall v hv).1 (hall v hv).2)]

/-- Witness for C7 (amended): a well-formed thumbnail request is created in
draft with a created audit entry, and a 1-variant request is rejected. -/
theorem c7_create_validation_witness :
    create_test true "thumbnail"
      [⟨some "A", some "u1", none, none⟩, ⟨some "B", some "u2", none, none⟩] =
      (some ⟨TestStatus.draft,
        [⟨some "A", some "u1", none, none⟩, ⟨some "B", some "u2", none, none⟩],
        ["created"]⟩, none) ∧
    (create_test true "thumbnail" [⟨some "A", some "u1", none, none⟩]).1 = none := by
  constructor
  · exact (c7_create_validation true "thumbnail"
      [⟨some "A", some "u1", none, none⟩, ⟨some "B", some "u2", none, none⟩]).2.2
      rfl (by decide) (by decide) (by decide) (by decide)
  · exact (c7_create_validation true "thumbnail"
      [⟨some "A", some "u1", none, none⟩]).1 (by decide)

/-- Step behavior of the retry loop: a successful execution returns at
once. -/
theorem retry_go_success (o : ℕ → ApiOutcome) (rf : ℕ → Bool)
    (rem r attempt backoff execs : ℕ) (sleeps : List ℕ)
    (hrem : rem = r + 1) (h : o attempt = ApiOutcome.ok) :
    retry_go o rf rem attempt backoff execs sleeps =
      ⟨true, none, execs + 1, sleeps⟩ := by
  subst hrem
  conv_lhs => unfold retry_go
  rw [h]

/-- Step behavior of the retry loop: a non-HTTP exception fails at once. -/
theorem retry_go_exception (o : ℕ → ApiOutcome) (rf : ℕ → Bool)
    (rem r attempt backoff execs : ℕ) (sleeps : List ℕ)
    (hrem : rem = r + 1) (h : o attempt = ApiOutcome.exc) :
    retry_go o rf rem attempt backoff execs sleeps =
      ⟨false, some "Unexpected error", execs + 1, sleeps⟩ := by
  subst hrem
  conv_lhs => unfold retry_go
  rw [h]

/-- Step behavior of the retry loop: a 429 or 5xx with attempts left sleeps
min(backoff, 16) seconds, doubles the backoff, and retries. -/
theorem retry_go_retry_backoff (o : ℕ → ApiOutcome) (rf : ℕ → Bool)
    (rem r attempt backoff execs : ℕ) (sleeps : List ℕ) (c : ℕ)
    (hrem : rem = r + 1) (h : o attempt = ApiOutcome.httpError c)
    (hc : c = 429 ∨ (500 ≤ c ∧ c < 600)) (ha : attempt < MAX_RETRIES - 1) :
    retry_go o rf rem attempt backoff execs sleeps =
      retry_go o rf r (attempt + 1) (backoff * 2) (execs + 1)
        (sleeps ++ [min backoff MAX_BACKOFF]) := by
  subst hrem
  conv_lhs => unfold retry_go
  rw [h]
  simp only [if_pos hc, if_pos ha]

/-- Step behavior of the retry loop: a 429 or 5xx on the last attempt
fails. -/
theorem retry_go_retry_exhausted (o : ℕ → ApiOutcome) (rf : ℕ → Bool)
    (rem r attempt backoff execs : ℕ) (sleeps : List ℕ) (c : ℕ)
    (hrem : rem = r + 1) (h : o attempt = ApiOutcome.httpError c)
    (hc : c = 429 ∨ (500 ≤ c ∧ c < 600)) (ha : ¬ attempt < MAX_RETRIES - 1) :
    retry_go o rf rem attempt backoff execs sleeps =
      ⟨false, some "Rate limit exceeded or server error after 3 attempts",
        execs + 1, sleeps⟩ := by
  subst hrem
  conv_lhs => unfold retry_go
  rw [h]
  simp only [if_pos hc, if_neg ha]

/-- Step behavior of the retry loop: a 401 with a successful token refresh
and attempts left retries immediately. -/
theorem retry_go_auth_retry (o : ℕ → ApiOutcome) (rf : ℕ → Bool)
    (rem r attempt backoff execs : ℕ) (sleeps : List ℕ)
    (hrem : rem = r + 1) (h : o attempt = ApiOutcome.httpError 401)
    (hrf : rf attempt = true) (ha : attempt < MAX_RETRIES - 1) :
    retry_go o rf rem attempt backoff execs sleeps =
      retry_go o rf r (attempt + 1) backoff (execs + 1) sleeps := by
  subst hrem
  conv_lhs => unfold retry_go
  rw [h]
  simp [hrf, ha]

/-- Step behavior of the retry loop: a 401 with a failed refresh or no
attempts left fails with the authentication message. -/
theorem retry_go_auth_fail (o : ℕ → ApiOutcome) (rf : ℕ → Bool)
    (rem r attempt backoff execs : ℕ) (sleeps : List ℕ)
    (hrem : rem = r + 1) (h : o attempt = ApiOutcome.httpError 401)
    (hno : ¬ (rf attempt = true ∧ attempt < MAX_RETRIES - 1)) :
    retry_go o rf rem attempt backoff execs sleeps =
      ⟨false, some "Authentication failed. Please reconnect your YouTube account.",
        execs + 1, sleeps⟩ := by
  subst hrem
  conv_lhs => unfold retry_go
  rw [h]
  simp [hno]

/-- Step behavior of the retry loop: a 403 fails at once with the quota
message. -/
theorem retry_go_quota (o : ℕ → ApiOutcome) (rf : ℕ → Bool)
    (rem r attempt backoff execs : ℕ) (sleeps : List ℕ)
    (hrem : rem = r + 1) (h : o attempt = ApiOutcome.httpError 403) :
    retry_go o rf rem attempt backoff execs sleeps =
      ⟨false, some "YouTube API quota exceeded. Please try again later.",
        execs + 1, sleeps⟩ := by
  subst hrem
  conv_lhs => unfold retry_go
  rw [h]
  simp

/-- Step behavior of the retry loop: any other HTTP error fails at once. -/
theorem retry_go_other (o : ℕ → ApiOutcome) (rf : ℕ → Bool)
    (rem r attempt backoff execs : ℕ) (sleeps : List ℕ) (c : ℕ)
    (hrem : rem = r + 1) (h : o attempt = ApiOutcome.httpError c)
    (hnr : ¬ (c = 429 ∨ (500 ≤ c ∧ c < 600))) (h401 : c ≠ 401) (h403 : c ≠ 403) :
    retry_go o rf rem attempt backoff execs sleeps =
      ⟨false, some "YouTube API error", execs + 1, sleeps⟩ := by
  subst hrem
  conv_lhs => unfold retry_go
  rw [h]
  simp [hnr, h401, h403]

/-- Counterexample to claim C9 as stated: on a persistently failing 401
with successful token refreshes, the client does not refresh once and
retry once (2 executions); it executes the request 3 times (two
refresh-and-retry cycles) before failing. -/
theorem c9_retry_contract_counterexample :
    execute_with_retry (fun _ => ApiOutcome.httpError 401) (fun _ => true) =
      ⟨false, some "Authentication failed. Please reconnect your YouTube account.",
        3, []⟩ := by
  rfl

/-- Claim C9 (amended): on 429 or any 5xx the client retries with
exponential backoff 1s then 2s (each capped at 16s), failing after 3
attempts total; on 403 it fails immediately with the quota message; any
other HTTP error and any non-HTTP exception fail immediately without
retry; on 401 it refreshes the token and retries, with refresh-retries
counted against the same overall cap of 3 attempts, so a single 401 costs
one refresh and one retry while a persistent 401 is executed 3 times
before failing with the authentication message. -/
theorem c9_retry_contract (rf : ℕ → Bool) :
    (∀ c, (c = 429 ∨ (500 ≤ c ∧ c < 600)) →
      execute_with_retry (fun _ => ApiOutcome.httpError c) rf =
        ⟨false, some "Rate limit exceeded or server error after 3 attempts",
          3, [1, 2]⟩) ∧
    (∀ o : ℕ → ApiOutcome, o 0 = ApiOutcome.httpError 403 →
      execute_with_retry o rf =
        ⟨false, some "YouTube API quota exceeded. Please try again later.", 1, []⟩) ∧
    (∀ (o : ℕ → ApiOutcome) (c : ℕ), o 0 = ApiOutcome.httpError c →
      ¬ (c = 429 ∨ (500 ≤ c ∧ c < 600)) → c ≠ 401 → c ≠ 403 →
      execute_with_retry o rf = ⟨false, some "YouTube API error", 1, []⟩) ∧
    (∀ o : ℕ → ApiOutcome, o 0 = ApiOutcome.exc →
      execute_with_retry o rf = ⟨false, some "Unexpected error", 1, []⟩) ∧
    (∀ o : ℕ → ApiOutcome, o 0 = ApiOutcome.httpError 401 → o 1 = ApiOutcome.ok →
      rf 0 = true → execute_with_retry o rf = ⟨true, none, 2, []⟩) ∧
    (∀ o : ℕ → ApiOutcome, (∀ n, o n = ApiOutcome.httpError 401) →
      (∀ n, rf n = true) →
      execute_with_retry o rf =
        ⟨false, some "Authentication failed. Please reconnect your YouTube account.",
          3, []⟩) := by
  refine ⟨?_, ?_, ?_, ?_, ?_, ?_⟩
  · intro c hc
    have e1 := retry_go_retry_backoff (fun _ => ApiOutcome.httpError c) rf 3 2 0 1 0
      [] c rfl rfl hc (by norm_num [MAX_RETRIES])
    have e2 := retry_go_retry_backoff (fun _ => ApiOutcome.httpError c) rf 2 1 1 2 1
      [1] c rfl rfl hc (by norm_num [MAX_RETRIES])
    have e3 := retry_go_retry_exhausted (fun _ => ApiOutcome.httpError c) rf 1 0 2 4 2
      [1, 2] c rfl rfl hc (by norm_num [MAX_RETRIES])
    exact e1.trans (e2.trans e3)
  · intro o h0
    exact retry_go_quota o rf 3 2 0 1 0 [] rfl h0
  · intro o c h0 hnr h401 h403
    exact retry_go_other o rf 3 2 0 1 0 [] c rfl h0 hnr h401 h403
  · intro o h0
    exact retry_go_exception o rf 3 2 0 1 0 [] rfl h0
  · intro o h0 h1 hrf
    have e1 := retry_go_auth_retry o rf 3 2 0 1 0 [] rfl h0 hrf
      (by norm_num [MAX_RETRIES])
    have e2 := retry_go_success o rf 2 1 1 1 1 [] rfl h1
    exact e1.trans e2
  · intro o hall hrfall
    have e1 := retry_go_auth_retry o rf 3 2 0 1 0 [] rfl (hall 0) (hrfall 0)
      (by norm_num [MAX_RETRIES])
    have e2 := retry_go_auth_retry o rf 2 1 1 1 1 [] rfl (hall 1) (hrfall 1)
      (by norm_num [MAX_RETRIES])
    have e3 := retry_go_auth_fail o rf 1 0 2 1 2 [] rfl (hall 2)
      (by simp [MAX_RETRIES])
    exact e1.trans (e2.trans e3)

/-- Witness for C9 (amended): a persistent 500 backs off 1s then 2s and
fails after 3 attempts; a single 401 followed by success is refreshed and
retried once. -/
theorem c9_retry_contract_witness :
    execute_with_retry (fun _ => ApiOutcome.httpError 500) (fun _ => true) =
      ⟨false, some "Rate limit exceeded or server error after 3 attempts",
        3, [1, 2]⟩ ∧
    execute_with_retry
      (fun n => if n = 0 then ApiOutcome.httpError 401 else ApiOutcome.ok)
      (fun _ => true) = ⟨true, none, 2, []⟩ := by
  constructor
  · exact (c9_retry_contract (fun _ => true)).1 500 (by norm_num)
  · exact (c9_retry_contract (fun _ => true)).2.2.2.2.1 _ rfl rfl rfl

/-- The running best of the Python max fold is the seed or one of the
folded elements. -/
theorem foldl_best_mem (l : List TestVariant) (b : TestVariant) :
    l.foldl (fun b w => if b.ctr < w.ctr then w else b) b = b ∨
      l.foldl (fun b w => if b.ctr < w.ctr then w else b) b ∈ l := by
  induction l generalizing b with
  | nil => exact Or.inl rfl
  | cons w rest ih =>
    rw [List.foldl_cons]
    rcases ih (if b.ctr < w.ctr then w else b) with h | h
    · rw [h]
      by_cases hcmp : b.ctr < w.ctr
      · exact Or.inr (by simp [hcmp])
      · exact Or.inl (by simp [hcmp])
    · exact Or.inr (List.mem_cons_of_mem w h)

/-- The running best of the Python max fold dominates the seed and every
folded element. -/
theorem foldl_best_ge (l : List TestVariant) (b : TestVariant) :
    b.ctr ≤ (l.foldl (fun b w => if b.ctr < w.ctr then w else b) b).ctr ∧
      ∀ v ∈ l, v.ctr ≤ (l.foldl (fun b w => if b.ctr < w.ctr then w else b) b).ctr := by
  induction l generalizing b with
  | nil => exact ⟨le_refl _, fun v hv => absurd hv (List.not_mem_nil v)⟩
  | cons w rest ih =>
    rw [List.foldl_cons]
    have hstep_b : b.ctr ≤ (if b.ctr < w.ctr then w else b).ctr := by
      by_cases hcmp : b.ctr < w.ctr
      · simpa [hcmp] using le_of_lt hcmp
      · simp [hcmp]
    have hstep_w : w.ctr ≤ (if b.ctr < w.ctr then w else b).ctr := by
      by_cases hcmp : b.ctr < w.ctr
      · simp [hcmp]
      · simpa [hcmp] using not_lt.mp hcmp
    obtain ⟨ih1, ih2⟩ := ih (if b.ctr < w.ctr then w else b)
    refine ⟨le_trans hstep_b ih1, fun v hv => ?_⟩
    rcases List.mem_cons.mp hv with hv | hv
    · subst hv
      exact le_trans hstep_w ih1
    · exact ih2 v hv

/-- Claim C4: for a test in state active or completed with at least two
variants, check_for_winner reports a winner, and the candidate is a
variant of the test with maximal click-through-rate. -/
theorem c4_has_winner (status : TestStatus) (variants : List TestVariant)
    (hstatus : status = TestStatus.active ∨ status = TestStatus.completed)
    (hlen : 2 ≤ variants.length) :
    check_for_winner status variants =
      (true, (max_by_ctr variants).map TestVariant.id, none) ∧
    ∀ b, max_by_ctr variants = some b →
      b ∈ variants ∧ ∀ v ∈ variants, v.ctr ≤ b.ctr := by
  have h1 : ¬ (status ≠ TestStatus.active ∧ status ≠ TestStatus.completed) := by
    rcases hstatus with h | h <;> simp [h]
  obtain ⟨v0, rest, rfl⟩ : ∃ v0 rest, variants = v0 :: rest := by
    cases variants with
    | nil => simp at hlen
    | cons v0 rest => exact ⟨v0, rest, rfl⟩
  constructor
  · unfold check_for_winner
    rw [if_neg h1, if_neg (not_lt.mpr hlen)]
    rw [if_neg (by simp [MIN_IMPRESSIONS])]
    rfl
  · intro b hb
    have hb2 : b = rest.foldl (fun b w => if b.ctr < w.ctr then w else b) v0 := by
      simpa [max_by_ctr] using hb.symm
    constructor
    · rcases foldl_best_mem rest v0 with h | h
      · rw [hb2, h]
        exact List.mem_cons_self v0 rest
      · rw [hb2]
        exact List.mem_cons_of_mem v0 h
    · intro v hv
      rw [hb2]
      rcases List.mem_cons.mp hv with hv | hv
      · exact hv ▸ (foldl_best_ge rest v0).1
      · exact (foldl_best_ge rest v0).2 v hv

/-- Witness for C4: on the claim's scenario — variant A with 1000
impressions and 50 clicks (CTR 5.0) against B with 1000 impressions and 40
clicks (CTR 4.0) — the candidate is A. -/
theorem c4_has_winner_witness :
    check_for_winner TestStatus.active
      [⟨1, 0, 1000, 50, 5, false, none⟩, ⟨2, 1, 1000, 40, 4, false, none⟩] =
      (true, some 1, none) := by
  have h := (c4_has_winner TestStatus.active
    [⟨1, 0, 1000, 50, 5, false, none⟩, ⟨2, 1, 1000, 40, 4, false, none⟩]
    (Or.inl rfl) (by decide)).1
  rw [h]
  rfl

/-- Flagging the variants carrying one winning id leaves at most one
flagged variant, provided ids are distinct and none was flagged before. -/
theorem count_flagged_le_one (l : List TestVariant) (wid : ℕ)
    (hnodup : (l.map TestVariant.id).Nodup)
    (hall : ∀ v ∈ l, v.is_winner = false) :
    winner_count (l.map
      (fun v => if v.id = wid then { v with is_winner := true } else v)) ≤ 1 := by
  induction l with
  | nil => simp [winner_count]
  | cons v rest ih =>
    rw [List.map_cons, List.nodup_cons] at hnodup
    by_cases hv : v.id = wid
    · have hrest : (rest.map
          (fun v => if v.id = wid then { v with is_winner := true } else v)).filter
          (fun v => v.is_winner) = [] := by
        rw [List.filter_eq_nil_iff]
        intro a ha
        obtain ⟨w, hw, rfl⟩ := List.mem_map.mp ha
        have hwid : w.id ≠ wid := by
          intro hEq
          exact hnodup.1 (by
            rw [hv, ← hEq]
            exact List.mem_map_of_mem TestVariant.id hw)
        rw [if_neg hwid]
        simp [hall w (List.mem_cons_of_mem v hw)]
      simp [winner_count, List.filter_cons, hv, hrest]
    · have htail := ih hnodup.2 (fun w hw => hall w (List.mem_cons_of_mem v hw))
      have hhead : v.is_winner = false := hall v (List.mem_cons_self v rest)
      simpa [winner_count, List.filter_cons, hv, hhead] using htail

/-- Counterexample to claim C1 as stated: starting from an active test
whose two variants are unflagged, manually selecting variant 1 and then —
on the now-completed test, which passes the status validation — manually
selecting variant 2 leaves both variants with is-winner = true; neither
call reports an error. -/
theorem c1_winner_invariant_counterexample :
    (select_winner
      ⟨TestStatus.active,
        [⟨1, 0, 1000, 50, 5, false, none⟩, ⟨2, 1, 1000, 40, 4, false, none⟩],
        none, none⟩ (some 1) 10).2.1 = none ∧
    (select_winner (select_winner
      ⟨TestStatus.active,
        [⟨1, 0, 1000, 50, 5, false, none⟩, ⟨2, 1, 1000, 40, 4, false, none⟩],
        none, none⟩ (some 1) 10).2.2 (some 2) 20).2.1 = none ∧
    winner_count (select_winner (select_winner
      ⟨TestStatus.active,
        [⟨1, 0, 1000, 50, 5, false, none⟩, ⟨2, 1, 1000, 40, 4, false, none⟩],
        none, none⟩ (some 1) 10).2.2 (some 2) 20).2.2.variants = 2 := by
  refine ⟨rfl, rfl, rfl⟩

/-- Claim C1 (amended): select_winner flags the chosen variant without
ever clearing the flags of the other variants; hence at most one variant
is flagged after a selection on a test whose variants were all unflagged,
but a flag set by an earlier selection persists, so a second manual
selection of a different variant leaves two flagged variants. -/
theorem c1_winner_invariant (s : ABTestState) (manual_variant_id : Option ℕ)
    (now : ℕ) :
    ((s.variants.map TestVariant.id).Nodup →
      (∀ v ∈ s.variants, v.is_winner = false) →
      winner_count (select_winner s manual_variant_id now).2.2.variants ≤ 1) ∧
    (∀ v ∈ s.variants, v.is_winner = true →
      ∃ v2 ∈ (select_winner s manual_variant_id now).2.2.variants,
        v2.id = v.id ∧ v2.is_winner = true) := by
  have hcases : (select_winner s manual_variant_id now).2.2.variants = s.variants ∨
      ∃ wid, (select_winner s manual_variant_id now).2.2.variants =
        s.variants.map
          (fun v => if v.id = wid then { v with is_winner := true } else v) := by
    unfold select_winner
    by_cases h1 : s.status ≠ TestStatus.active ∧ s.status ≠ TestStatus.completed
    · rw [if_pos h1]
      exact Or.inl rfl
    · rw [if_neg h1]
      cases hw : resolve_winner_id s manual_variant_id with
      | none => exact Or.inl rfl
      | some wid => exact Or.inr ⟨wid, rfl⟩
  constructor
  · intro hnodup hall
    rcases hcases with hcase | ⟨wid, hcase⟩
    · rw [hcase]
      have : s.variants.filter (fun v => v.is_winner) = [] := by
        rw [List.filter_eq_nil_iff]
        intro a ha
        simp [hall a ha]
      simp [winner_count, this]
    · rw [hcase]
      exact count_flagged_le_one s.variants wid hnodup hall
  · intro v hv hwin
    rcases hcases with hcase | ⟨wid, hcase⟩
    · rw [hcase]
      exact ⟨v, hv, rfl, hwin⟩
    · rw [hcase]
      refine ⟨if v.id = wid then { v with is_winner := true } else v,
        List.mem_map_of_mem _ hv, ?_, ?_⟩
      · by_cases hid : v.id = wid <;> simp [hid]
      · by_cases hid : v.id = wid <;> simp [hid, hwin]

/-- Witness for C1 (amended): at most one winner after a first manual
selection on a clean two-variant test, and persistence of an already-set
flag through a second selection. -/
theorem c1_winner_invariant_witness :
    winner_count (select_winner
      ⟨TestStatus.active,
        [⟨1, 0, 1000, 50, 5, false, none⟩, ⟨2, 1, 1000, 40, 4, false, none⟩],
        none, none⟩ (some 1) 10).2.2.variants ≤ 1 ∧
    ∃ v2 ∈ (select_winner
      ⟨TestStatus.completed,
        [⟨1, 0, 1000, 50, 5, true, none⟩, ⟨2, 1, 1000, 40, 4, false, none⟩],
        some 1, some 10⟩ (some 2) 20).2.2.variants,
      v2.id = 1 ∧ v2.is_winner = true := by
  constructor
  · exact (c1_winner_invariant
      ⟨TestStatus.active,
        [⟨1, 0, 1000, 50, 5, false, none⟩, ⟨2, 1, 1000, 40, 4, false, none⟩],
        none, none⟩ (some 1) 10).1 (by decide) (by decide)
  · exact (c1_winner_invariant
      ⟨TestStatus.completed,
        [⟨1, 0, 1000, 50, 5, true, none⟩, ⟨2, 1, 1000, 40, 4, false, none⟩],
        some 1, some 10⟩ (some 2) 20).2
      ⟨1, 0, 1000, 50, 5, true, none⟩ (by simp) rfl

/-- The most-recently-applied search returns an index inside the list and
the timestamp stored there. -/
theorem argmax_applied_bounds : ∀ (l : List (Option ℕ)) (j t : ℕ),
    argmax_applied l = some (j, t) → j < l.length ∧ some t ∈ l := by
  intro l
  induction l with
  | nil =>
    intro j t h
    simp [argmax_applied] at h
  | cons o rest ih =>
    intro j t h
    cases o with
    | none =>
      cases hrest : argmax_applied rest with
      | none => simp [argmax_applied, argmax_step, hrest] at h
      | some p =>
        obtain ⟨j0, u⟩ := p
        simp only [argmax_applied, argmax_step, hrest, Option.map_some] at h
        obtain ⟨hj, ht⟩ := Prod.mk.injEq .. ▸ Option.some.inj h
        obtain ⟨hb1, hb2⟩ := ih j0 u hrest
        subst hj
        subst ht
        exact ⟨by simpa using hb1, List.mem_cons_of_mem none hb2⟩
    | some t0 =>
      cases hrest : argmax_applied rest with
      | none =>
        simp only [argmax_applied, argmax_step, hrest, Option.map_none] at h
        obtain ⟨hj, ht⟩ := Prod.mk.injEq .. ▸ Option.some.inj h
        subst hj
        subst ht
        exact ⟨by simp, List.mem_cons_self _ _⟩
      | some p =>
        obtain ⟨j0, u⟩ := p
        by_cases hcmp : t0 < u
        · have hval : argmax_applied (some t0 :: rest) = some (j0 + 1, u) := by
            simp [argmax_applied, argmax_step, hrest, hcmp]
          rw [hval] at h
          obtain ⟨hj, ht⟩ := Prod.mk.injEq .. ▸ Option.some.inj h
          obtain ⟨hb1, hb2⟩ := ih j0 u hrest
          subst hj
          subst ht
          exact ⟨by simpa using hb1, List.mem_cons_of_mem _ hb2⟩
        · have hval : argmax_applied (some t0 :: rest) = some (0, t0) := by
            simp [argmax_applied, argmax_step, hrest, hcmp]
          rw [hval] at h
          obtain ⟨hj, ht⟩ := Prod.mk.injEq .. ▸ Option.some.inj h
          subst hj
          subst ht
          exact ⟨by simp, List.mem_cons_self _ _⟩

/-- Setting position `i` to a timestamp strictly greater than every stored
timestamp makes `i` the most recently applied index. -/
theorem argmax_applied_set : ∀ (l : List (Option ℕ)) (i T : ℕ),
    i < l.length → (∀ x, some x ∈ l → x < T) →
    argmax_applied (l.set i (some T)) = some (i, T) := by
  intro l
  induction l with
  | nil =>
    intro i T hi _
    simp at hi
  | cons o rest ih =>
    intro i T hi hall
    cases i with
    | zero =>
      rw [List.set_cons_zero]
      cases hrest : argmax_applied rest with
      | none => simp [argmax_applied, argmax_step, hrest]
      | some p =>
        obtain ⟨j0, u⟩ := p
        have hu : u < T :=
          hall u (List.mem_cons_of_mem o (argmax_applied_bounds rest j0 u hrest).2)
        simp [argmax_applied, argmax_step, hrest, not_lt.mpr (le_of_lt hu)]
    | succ i0 =>
      rw [List.set_cons_succ]
      have hrec := ih i0 T (by simpa using hi)
        (fun x hx => hall x (List.mem_cons_of_mem o hx))
      cases o with
      | none => simp [argmax_applied, argmax_step, hrec]
      | some t0 =>
        have ht0 : t0 < T := hall t0 (List.mem_cons_self _ _)
        simp [argmax_applied, argmax_step, hrec, ht0]

/-- Well-formedness, stated elementwise. -/
theorem wfApplied_iff (l : List (Option ℕ)) (c : ℕ) :
    WfApplied l c = true ↔ ∀ x, some x ∈ l → x < c := by
  unfold WfApplied
  rw [List.all_eq_true]
  constructor
  · intro h x hx
    simpa using h (some x) hx
  · intro h o ho
    cases o with
    | none => rfl
    | some x => simpa using h x ho

/-- Applying a variant at the current clock preserves well-formedness for
the advanced clock. -/
theorem wfApplied_set (l : List (Option ℕ)) (c i : ℕ)
    (h : WfApplied l c = true) :
    WfApplied (l.set i (some c)) (c + 1) = true := by
  rw [wfApplied_iff] at h ⊢
  intro x hx
  rcases List.mem_or_eq_of_mem_set hx with hmem | heq
  · exact lt_trans (h x hmem) (Nat.lt_succ_self c)
  · cases heq
    exact Nat.lt_succ_self c

/-- A test with at least one variant always has a current variant, and its
index is in range. -/
theorem get_current_variant_some (s : SchedulerState)
    (hn : 0 < s.applied.length) :
    ∃ c, get_current_variant s = some c ∧ c < s.applied.length := by
  unfold get_current_variant
  cases hm : argmax_applied s.applied with
  | none =>
    refine ⟨0, ?_, hn⟩
    have hne : s.applied ≠ [] := List.ne_nil_of_length_pos hn
    simp [List.isEmpty_iff, hne]
  | some p =>
    obtain ⟨j, t⟩ := p
    exact ⟨j, rfl, (argmax_applied_bounds _ j t hm).1⟩

/-- One rotation step: from current variant `c`, rotate applies the
variant at index `(c + 1) mod n`, which becomes the new current variant of
a still well-formed state. -/
theorem rotate_variant_step (s : SchedulerState) (c : ℕ)
    (hWf : WfApplied s.applied s.clock = true)
    (hst : s.status = TestStatus.active)
    (hc : get_current_variant s = some c) (hn : 0 < s.applied.length) :
    rotate_variant s = some ((c + 1) % s.applied.length,
      { s with
        applied := s.applied.set ((c + 1) % s.applied.length) (some s.clock),
        clock := s.clock + 1 }) ∧
    get_current_variant
      { s with
        applied := s.applied.set ((c + 1) % s.applied.length) (some s.clock),
        clock := s.clock + 1 } = some ((c + 1) % s.applied.length) ∧
    WfApplied (s.applied.set ((c + 1) % s.applied.length) (some s.clock))
      (s.clock + 1) = true := by
  have hmod : (c + 1) % s.applied.length < s.applied.length := Nat.mod_lt _ hn
  have happ : apply_variant s ((c + 1) % s.applied.length) = some
      { s with
        applied := s.applied.set ((c + 1) % s.applied.length) (some s.clock),
        clock := s.clock + 1 } := by
    unfold apply_variant
    rw [if_neg (by simp [hst]), if_pos hmod]
  refine ⟨?_, ?_, wfApplied_set s.applied s.clock _ hWf⟩
  · simp only [rotate_variant]
    rw [if_neg (by simp [hst]), if_neg (by omega), hc, happ]
  · simp only [get_current_variant]
    rw [argmax_applied_set s.applied _ s.clock hmod ((wfApplied_iff _ _).mp hWf)]

/-- The last element of a mapped range. -/
theorem getLast_map_range (k : ℕ) (f : ℕ → ℕ) (hk : 0 < k) :
    ((List.range k).map f).getLast? = some (f (k - 1)) := by
  obtain ⟨m, rfl⟩ : ∃ m, k = m + 1 := ⟨k - 1, by omega⟩
  rw [List.range_succ, List.map_append]
  simp [List.getLast?_concat]

/-- Unfolding one rotation of a rotation sequence. -/
theorem rotate_seq_succ_of_rotate (k : ℕ) (s : SchedulerState) (i : ℕ)
    (s1 : SchedulerState) (h : rotate_variant s = some (i, s1)) :
    rotate_seq (k + 1) s = (rotate_seq k s1).map (fun p => (i :: p.1, p.2)) := by
  simp [rotate_seq, h]

/-- `k` successive rotations from current variant `c` visit exactly the
indices `(c + 1 + j) mod n` for `j < k`, ending with current variant
`(c + k) mod n`, on a well-formed active state. -/
theorem rotate_seq_formula : ∀ (k : ℕ) (s : SchedulerState) (c : ℕ),
    WfApplied s.applied s.clock = true → s.status = TestStatus.active →
    get_current_variant s = some c → c < s.applied.length →
    0 < s.applied.length →
    ∃ s2, rotate_seq k s =
        some ((List.range k).map (fun j => (c + 1 + j) % s.applied.length), s2) ∧
      s2.applied.length = s.applied.length ∧ s2.status = TestStatus.active ∧
      WfApplied s2.applied s2.clock = true ∧
      get_current_variant s2 = some ((c + k) % s.applied.length) := by
  intro k
  induction k with
  | zero =>
    intro s c hWf hst hc hlt hn
    refine ⟨s, by simp [rotate_seq], rfl, hst, hWf, ?_⟩
    rw [Nat.add_zero, Nat.mod_eq_of_lt hlt]
    exact hc
  | succ k ih =>
    intro s c hWf hst hc hlt hn
    obtain ⟨hrot, hcur1, hWf1⟩ := rotate_variant_step s c hWf hst hc hn
    have hlen1 : (s.applied.set ((c + 1) % s.applied.length)
        (some s.clock)).length = s.applied.length := List.length_set _ _ _
    have hmod : (c + 1) % s.applied.length < s.applied.length := Nat.mod_lt _ hn
    obtain ⟨s2, hseq, hlen2, hst2, hWf2, hcur2⟩ := ih
      { s with
        applied := s.applied.set ((c + 1) % s.applied.length) (some s.clock),
        clock := s.clock + 1 }
      ((c + 1) % s.applied.length) hWf1 hst hcur1
      (by simpa [hlen1] using hmod) (by simpa [hlen1] using hn)
    refine ⟨s2, ?_, by rw [hlen2]; exact hlen1, hst2, hWf2, ?_⟩
    · rw [rotate_seq_succ_of_rotate k s _ _ hrot, hseq]
      refine congrArg some (Prod.ext ?_ rfl)
      show (c + 1) % s.applied.length ::
        (List.range k).map
          (fun j => ((c + 1) % s.applied.length + 1 + j) %
            (s.applied.set ((c + 1) % s.applied.length) (some s.clock)).length) =
        (List.range (k + 1)).map (fun j => (c + 1 + j) % s.applied.length)
      rw [List.range_succ_eq_map k, List.map_cons, List.map_map]
      refine List.cons_eq_cons.mpr ⟨rfl, List.map_congr_left fun j hj => ?_⟩
      show ((c + 1) % s.applied.length + 1 + j) %
          (s.applied.set ((c + 1) % s.applied.length) (some s.clock)).length =
        (c + 1 + (j + 1)) % s.applied.length
      rw [hlen1, add_assoc, Nat.mod_add_mod]
      congr 1
      omega
    · have hlen1a : ({ s with
          applied := s.applied.set ((c + 1) % s.applied.length) (some s.clock),
          clock := s.clock + 1 } : SchedulerState).applied.length =
          s.applied.length := hlen1
      rw [hlen1a] at hcur2
      refine hcur2.trans (congrArg some ?_)
      rw [Nat.mod_add_mod]
      congr 1
      omega

/-- Claim C2: for a well-formed active test with n ≥ 1 variants whose
applications all succeed, each rotate moves from the current variant to
the one immediately following it in name order (wrapping to the first),
and n successive rotations return to the variant that was current at the
start, visiting every other variant exactly once in between. -/
theorem c2_rotation_round_robin (s : SchedulerState) (c : ℕ)
    (hWf : WfApplied s.applied s.clock = true)
    (hst : s.status = TestStatus.active)
    (hn : 0 < s.applied.length)
    (hc : get_current_variant s = some c) :
    (∃ s1, rotate_variant s = some ((c + 1) % s.applied.length, s1)) ∧
    ∃ visits s2,
      rotate_seq s.applied.length s = some (visits, s2) ∧
      visits = (List.range s.applied.length).map
        (fun j => (c + 1 + j) % s.applied.length) ∧
      get_current_variant s2 = get_current_variant s ∧
      visits.length = s.applied.length ∧
      visits.Nodup ∧
      (∀ j ∈ visits, j < s.applied.length) ∧
      visits.getLast? = some c ∧
      c ∉ visits.dropLast ∧
      (∀ j, j < s.applied.length → j ≠ c → j ∈ visits.dropLast) := by
  obtain ⟨c', hc', hlt'⟩ := get_current_variant_some s hn
  have hlt : c < s.applied.length := by
    have : c = c' := Option.some.inj (hc.symm.trans hc')
    exact this ▸ hlt'
  obtain ⟨hrot, -, -⟩ := rotate_variant_step s c hWf hst hc hn
  refine ⟨⟨_, hrot⟩, ?_⟩
  obtain ⟨s2, hseq, hlen2, hst2, hWf2, hcur2⟩ :=
    rotate_seq_formula s.applied.length s c hWf hst hc hlt hn
  set n := s.applied.length with hn_def
  set visits := (List.range n).map (fun j => (c + 1 + j) % n) with hvisits
  have hlenv : visits.length = n := by simp [hvisits]
  have hbounds : ∀ j ∈ visits, j < n := by
    intro j hj
    obtain ⟨k0, _, rfl⟩ := List.mem_map.mp hj
    exact Nat.mod_lt _ hn
  have hnodup : visits.Nodup := by
    refine List.Nodup.map_on ?_ (List.nodup_range n)
    intro j1 h1 j2 h2 heq
    rw [List.mem_range] at h1 h2
    have hm : Nat.ModEq n (c + 1 + j1) (c + 1 + j2) := heq
    have hj : Nat.ModEq n j1 j2 := Nat.ModEq.add_left_cancel' (c + 1) hm
    have : j1 % n = j2 % n := hj
    rwa [Nat.mod_eq_of_lt h1, Nat.mod_eq_of_lt h2] at this
  have hlast : visits.getLast? = some c := by
    rw [hvisits, getLast_map_range n _ hn]
    have h1 : c + 1 + (n - 1) = c + n := by omega
    rw [h1, Nat.add_mod_right, Nat.mod_eq_of_lt hlt]
  have hne : visits ≠ [] := List.ne_nil_of_length_pos (by rw [hlenv]; exact hn)
  have hlastv : visits.getLast hne = c :=
    Option.some.inj ((List.getLast?_eq_getLast_of_ne_nil hne).symm.trans hlast)
  have hdecomp : visits.dropLast ++ [c] = visits := by
    rw [← hlastv]
    exact List.dropLast_append_getLast hne
  have hnotmem : c ∉ visits.dropLast := by
    have hnd : (visits.dropLast ++ [c]).Nodup := by
      rw [hdecomp]
      exact hnodup
    rcases List.nodup_append.mp hnd with ⟨-, -, hdisj⟩
    intro hmem
    exact hdisj hmem (List.mem_singleton.mpr rfl)
  have hfin : visits.toFinset = Finset.range n := by
    apply Finset.eq_of_subset_of_card_le
    · intro j hj
      rw [List.mem_toFinset] at hj
      exact Finset.mem_range.mpr (hbounds j hj)
    · rw [List.toFinset_card_of_nodup hnodup, Finset.card_range, hlenv]
  refine ⟨visits, s2, hseq, rfl, ?_, hlenv, hnodup, hbounds, hlast, hnotmem, ?_⟩
  · rw [hcur2, Nat.add_mod_right, Nat.mod_eq_of_lt hlt, hc]
  · intro j hjn hjc
    have hjv : j ∈ visits := by
      rw [← List.mem_toFinset, hfin]
      exact Finset.mem_range.mpr hjn
    rw [← hdecomp] at hjv
    rcases List.mem_append.mp hjv with h | h
    · exact h
    · exact absurd (List.mem_singleton.mp h) hjc

/-- Witness for C2: an active three-variant test where only the first
variant has been applied rotates through indices 1, 2, 0. -/
theorem c2_rotation_round_robin_witness :
    ∃ visits s2,
      rotate_seq 3 ⟨TestStatus.active, [some 0, none, none], 1⟩ =
        some (visits, s2) ∧ visits = [1, 2, 0] := by
  obtain ⟨-, visits, s2, hseq, hform, -⟩ :=
    c2_rotation_round_robin ⟨TestStatus.active, [some 0, none, none], 1⟩ 0
      (by decide) rfl (by decide) (by decide)
  exact ⟨visits, s2, hseq, by rw [hform]; decide⟩

/-- On the main path — enough impressions, distinct proportions, nonzero
standard error, positive z — the confidence is the bucketed z value capped
at 1. -/
theorem calculate_confidence_eq (a b : TestVariant)
    (h30 : ¬ (a.impressions < 30 ∨ b.impressions < 30))
    (hpe : click_proportion a ≠ click_proportion b)
    (hse : standard_error a b ≠ 0) (hz : 0 < z_score a b) :
    calculate_confidence a b = min
      (if 2.576 ≤ z_score a b then 0.995
       else if 1.96 ≤ z_score a b then 0.975
       else if 1.645 ≤ z_score a b then 0.95
       else if 1.28 ≤ z_score a b then 0.90
       else 0.5 + (z_score a b / 1.28) * 0.40) 1 := by
  simp only [calculate_confidence]
  rw [if_neg h30, if_neg hpe, if_neg hse, if_neg (not_le.mpr hz)]

/-- Claim C10: confidence is 0 whenever either variant has fewer than 30
impressions, whenever the proportions are equal, and whenever the pooled
standard error is 0; otherwise positive z-scores are bucketed as 0.995 for
z ≥ 2.576, 0.975 for z ≥ 1.96, 0.95 for z ≥ 1.645, 0.90 for z ≥ 1.28, and
0.5 + (z/1.28)·0.40 for smaller positive z; the result never exceeds 1. -/
theorem c10_confidence (a b : TestVariant) :
    ((a.impressions < 30 ∨ b.impressions < 30) → calculate_confidence a b = 0) ∧
    (click_proportion a = click_proportion b → calculate_confidence a b = 0) ∧
    (standard_error a b = 0 → calculate_confidence a b = 0) ∧
    (¬ (a.impressions < 30 ∨ b.impressions < 30) →
      click_proportion a ≠ click_proportion b → standard_error a b ≠ 0 →
      ((2.576 ≤ z_score a b → calculate_confidence a b = 0.995) ∧
       (1.96 ≤ z_score a b → z_score a b < 2.576 →
         calculate_confidence a b = 0.975) ∧
       (1.645 ≤ z_score a b → z_score a b < 1.96 →
         calculate_confidence a b = 0.95) ∧
       (1.28 ≤ z_score a b → z_score a b < 1.645 →
         calculate_confidence a b = 0.90) ∧
       (0 < z_score a b → z_score a b < 1.28 →
         calculate_confidence a b = 0.5 + (z_score a b / 1.28) * 0.40))) ∧
    calculate_confidence a b ≤ 1 := by
  refine ⟨?_, ?_, ?_, ?_, ?_⟩
  · intro h30
    simp only [calculate_confidence]
    rw [if_pos h30]
  · intro hpe
    simp only [calculate_confidence]
    by_cases h30 : a.impressions < 30 ∨ b.impressions < 30
    · rw [if_pos h30]
    · rw [if_neg h30, if_pos hpe]
  · intro hse
    simp only [calculate_confidence]
    by_cases h30 : a.impressions < 30 ∨ b.impressions < 30
    · rw [if_pos h30]
    · rw [if_neg h30]
      by_cases hpe : click_proportion a = click_proportion b
      · rw [if_pos hpe]
      · rw [if_neg hpe, if_pos hse]
  · intro h30 hpe hse
    refine ⟨?_, ?_, ?_, ?_, ?_⟩
    · intro hb1
      have hz : 0 < z_score a b := lt_of_lt_of_le (by norm_num) hb1
      rw [calculate_confidence_eq a b h30 hpe hse hz, if_pos hb1]
      exact min_eq_left (by norm_num)
    · intro hb1 hb2
      have hz : 0 < z_score a b := lt_of_lt_of_le (by norm_num) hb1
      rw [calculate_confidence_eq a b h30 hpe hse hz,
        if_neg (not_le.mpr hb2), if_pos hb1]
      exact min_eq_left (by norm_num)
    · intro hb1 hb2
      have hz : 0 < z_score a b := lt_of_lt_of_le (by norm_num) hb1
      rw [calculate_confidence_eq a b h30 hpe hse hz,
        if_neg (not_le.mpr (lt_trans hb2 (by norm_num))),
        if_neg (not_le.mpr hb2), if_pos hb1]
      exact min_eq_left (by norm_num)
    · intro hb1 hb2
      have hz : 0 < z_score a b := lt_of_lt_of_le (by norm_num) hb1
      rw [calculate_confidence_eq a b h30 hpe hse hz,
        if_neg (not_le.mpr (lt_trans hb2 (by norm_num))),
        if_neg (not_le.mpr (lt_trans hb2 (by norm_num))),
        if_neg (not_le.mpr hb2), if_pos hb1]
      exact min_eq_left (by norm_num)
    · intro hz1 hz2
      rw [calculate_confidence_eq a b h30 hpe hse hz1,
        if_neg (not_le.mpr (lt_trans hz2 (by norm_num))),
        if_neg (not_le.mpr (lt_trans hz2 (by norm_num))),
        if_neg (not_le.mpr (lt_trans hz2 (by norm_num))),
        if_neg (not_le.mpr hz2)]
      refine min_eq_left ?_
      have hdiv : z_score a b / 1.28 < 1 := (div_lt_one (by norm_num)).mpr hz2
      nlinarith [hdiv]
  · simp only [calculate_confidence]
    split_ifs <;> norm_num

/-- Witness for C10: variants with 50 impressions each and 30 versus 20
clicks give proportions 0.6 and 0.4, pooled standard error 0.1, z-score 2,
and confidence 0.975. -/
theorem c10_confidence_witness :
    calculate_confidence ⟨1, 0, 50, 30, 6, false, none⟩
      ⟨2, 1, 50, 20, 4, false, none⟩ = 0.975 := by
  have hpA : click_proportion ⟨1, 0, 50, 30, 6, false, none⟩ = 3 / 5 := by
    unfold click_proportion
    norm_num
  have hpB : click_proportion ⟨2, 1, 50, 20, 4, false, none⟩ = 2 / 5 := by
    unfold click_proportion
    norm_num
  have hpool : pooled_proportion ⟨1, 0, 50, 30, 6, false, none⟩
      ⟨2, 1, 50, 20, 4, false, none⟩ = 1 / 2 := by
    unfold pooled_proportion
    norm_num
  have harg : pooled_proportion ⟨1, 0, 50, 30, 6, false, none⟩
        ⟨2, 1, 50, 20, 4, false, none⟩ *
      (1 - pooled_proportion ⟨1, 0, 50, 30, 6, false, none⟩
        ⟨2, 1, 50, 20, 4, false, none⟩) *
      (1 / ((⟨1, 0, 50, 30, 6, false, none⟩ : TestVariant).impressions : ℝ) +
        1 / ((⟨2, 1, 50, 20, 4, false, none⟩ : TestVariant).impressions : ℝ)) =
      (1 / 10) ^ 2 := by
    rw [hpool]
    norm_num
  have hse : standard_error ⟨1, 0, 50, 30, 6, false, none⟩
      ⟨2, 1, 50, 20, 4, false, none⟩ = 1 / 10 := by
    unfold standard_error
    rw [harg, Real.sqrt_sq (by norm_num : (0:ℝ) ≤ 1 / 10)]
  have hz : z_score ⟨1, 0, 50, 30, 6, false, none⟩
      ⟨2, 1, 50, 20, 4, false, none⟩ = 2 := by
    unfold z_score
    rw [hpA, hpB, hse]
    norm_num
  have h30 : ¬ ((⟨1, 0, 50, 30, 6, false, none⟩ : TestVariant).impressions < 30 ∨
      (⟨2, 1, 50, 20, 4, false, none⟩ : TestVariant).impressions < 30) := by
    decide
  have hne : click_proportion ⟨1, 0, 50, 30, 6, false, none⟩ ≠
      click_proportion ⟨2, 1, 50, 20, 4, false, none⟩ := by
    rw [hpA, hpB]
    norm_num
  have hsene : standard_error ⟨1, 0, 50, 30, 6, false, none⟩
      ⟨2, 1, 50, 20, 4, false, none⟩ ≠ 0 := by
    rw [hse]
    norm_num
  have h := (c10_confidence ⟨1, 0, 50, 30, 6, false, none⟩
    ⟨2, 1, 50, 20, 4, false, none⟩).2.2.2.1 h30 hne hsene
  exact h.2.1 (by rw [hz]; norm_num) (by rw [hz]; norm_num)

end ABTesting
